import Mathlib

/-!
# Varnish cache cleaner: invalidation fan-out

A shallow embedding of the message loop of `main.go` (two modes: configuration
reload and targeted ban) and of `cleanCache.go` (targeted ban only), together
with the helper functions `getKubeDNS`, `getContainer` and `execInPod` of each
file.

The cluster API, the remote-execution transport and the message channel are
external collaborators.  Their answers are supplied by an `Env` value, and
every call to them, every line written to standard output and every goroutine
started is recorded as an `Event`, so that statements such as "the fleet is not
listed" are statements about the recorded trace.  A Go `panic` that nobody
recovers ends the process; it is the `Run.panicked` result.
-/

namespace VarnishCacheClean

/-! ## Data read from the cluster API -/

/-- One item of a service listing: the two metadata fields the program reads. -/
structure Service where
  Name : String
  Namespace : String
deriving DecidableEq

/-- One declared container of a pod (`pod.Spec.Containers[i]`).  `Image` stands
for the fields other than the name, which the program copies but never reads. -/
structure Container where
  Name : String
  Image : String
deriving DecidableEq

/-- One entry of `pod.Status.ContainerStatuses`. -/
structure ContainerStatus where
  Ready : Bool
deriving DecidableEq

/-- One item of a pod listing.  `Containers` is `Spec.Containers` and
`ContainerStatuses` is `Status.ContainerStatuses`; the two slices have
independent lengths. -/
structure Pod where
  Namespace : String
  Name : String
  Containers : List Container
  ContainerStatuses : List ContainerStatus
deriving DecidableEq

/-- The zero value `v1.Container{}`. -/
def emptyContainer : Container := ⟨"", ""⟩

/-! ## Results, panics and traces -/

/-- The value carried by an unrecovered panic. -/
inductive Panic where
  /-- The statement `panic(err.Error())` or `panic(err)` on an error of a collaborator. -/
  | err (msg : String)
  /-- The runtime fault of `s[index]` on a slice of length `length`. -/
  | indexOutOfRange (index length : Nat)
deriving DecidableEq

/-- Either a returned value or a panic that ends the process. -/
inductive Run (α : Type) where
  | ret (a : α)
  | panicked (p : Panic)
deriving DecidableEq

/-- The arguments of one `go execInPod(...)` statement: one execution unit. -/
structure ExecRequest where
  namespace_ : String
  podName : String
  command : String
  containerName : String
deriving DecidableEq

/-- What the remote-execution transport answers for one execution unit. -/
inductive SessionOutcome where
  /-- The call `remotecommand.NewSPDYExecutor` returned an error. -/
  | executorError (msg : String)
  /-- The call `exec.Stream` returned an error. -/
  | streamError (msg : String)
  /-- The call `exec.Stream` succeeded and filled the two buffers. -/
  | streamed (stdout stderr : String)
deriving DecidableEq

/-- Observable steps of the program. -/
inductive Event where
  /-- The call `clientset.CoreV1().Services("").List(...)`. -/
  | listServices
  /-- The call `clientset.CoreV1().Pods(ns).List(...)`. -/
  | listPods (ns : String)
  /-- Text written to standard output by the message loop. -/
  | stdout (text : String)
  /-- The statements `wg.Add(1)` and `go execInPod(...)`. -/
  | spawn (req : ExecRequest)
  /-- The line an execution unit prints: the two captured buffers, each passed
  through `strings.TrimSpace`. -/
  | unitPrint (req : ExecRequest) (stdout stderr : String)
  /-- The deferred call `wg.Done()` of an execution unit, run when the unit
  returns and also while a panic of the unit unwinds. -/
  | wgDone (req : ExecRequest)
  /-- The call `wg.Wait()` returned. -/
  | barrier
deriving DecidableEq

/-- A trace of events together with the value returned or the panic raised. -/
structure Outcome (α : Type) where
  events : List Event
  result : Run α

/-- The answers of the external collaborators during one cycle. -/
structure Env where
  /-- Answer of the service listing over all namespaces. -/
  services : Except String (List Service)
  /-- Answer of the pod listing of a namespace. -/
  pods : String → Except String (List Pod)
  /-- Answer of the remote-execution transport for one execution unit. -/
  session : ExecRequest → SessionOutcome

/-- The two configured values the loop reads: the namespace whose pods are
listed and the container name looked for in each pod. -/
structure Config where
  varnishNamespace : String
  varnishContainerName : String

/-- The execution units started in a trace, in the order of their start. -/
def launched : List Event → List ExecRequest
  | [] => []
  | Event.spawn req :: rest => req :: launched rest
  | _ :: rest => launched rest

/-- Position `i` of the pod holds a declared container of the wanted name whose
readiness flag, at the same position `i`, is true: the selection condition of
fleet discovery. -/
def readyAt (containerName : String) (pod : Pod) (i : Nat) : Bool :=
  match pod.Containers[i]?, pod.ContainerStatuses[i]? with
  | some c, some st => decide (c.Name = containerName) && st.Ready
  | _, _ => false

/-- The pod has, at some position of its declared containers, a container of
the wanted name that is ready at that position. -/
def eligible (containerName : String) (pod : Pod) : Bool :=
  (List.range pod.Containers.length).any (readyAt containerName pod)

/-- The execution unit that a cycle with command `cmd` starts for a selected
pod: the pod's namespace and name, the command, the wanted container name. -/
def unitFor (containerName cmd : String) (pod : Pod) : ExecRequest :=
  ⟨pod.Namespace, pod.Name, cmd, containerName⟩

/-- The remote session of an execution unit opened and streamed without
error. -/
def sessionOk (env : Env) (req : ExecRequest) : Bool :=
  match env.session req with
  | SessionOutcome.streamed _ _ => true
  | _ => false

/-- Every pod of the listing reports exactly one readiness flag per declared
container. -/
def aligned (pods : List Pod) : Prop :=
  ∀ pod ∈ pods, pod.ContainerStatuses.length = pod.Containers.length

instance (pods : List Pod) : Decidable (aligned pods) :=
  inferInstanceAs (Decidable (∀ pod ∈ pods, pod.ContainerStatuses.length = pod.Containers.length))

/-! ## `main.go` -/

namespace MainGo

/-- The loop of `getKubeDNS` over `kubeServiceList.Items`. -/
def getKubeDNSItems (service : String) : List Service → String × Bool
  | [] => ("", false)
  | kubeService :: rest =>
    if kubeService.Name = service then
      (kubeService.Name ++ "." ++ kubeService.Namespace ++ ".svc.cluster.local", true)
    else getKubeDNSItems service rest

/-- The function `getKubeDNS` of `main.go`: list the services, panic when the
listing fails, otherwise return the key of the first service of that name. -/
def getKubeDNS (env : Env) (service : String) : Outcome (String × Bool) :=
  match env.services with
  | .error e => ⟨[Event.listServices], Run.panicked (Panic.err e)⟩
  | .ok items => ⟨[Event.listServices], Run.ret (getKubeDNSItems service items)⟩

/-- The loop of `getContainer` over `pod.Spec.Containers` from position
`index` on.  The readiness slice is indexed only after the name matched
(`&&` evaluates its right operand only then), and indexing past its end is a
runtime panic. -/
def getContainerFrom (containerName : String) (pod : Pod) :
    Nat → List Container → Run (Container × Bool)
  | _, [] => Run.ret (emptyContainer, false)
  | index, container :: rest =>
    if container.Name = containerName then
      match pod.ContainerStatuses[index]? with
      | none => Run.panicked (Panic.indexOutOfRange index pod.ContainerStatuses.length)
      | some st =>
        if st.Ready then Run.ret (container, true)
        else getContainerFrom containerName pod (index + 1) rest
    else getContainerFrom containerName pod (index + 1) rest

/-- The function `getContainer` of `main.go`. -/
def getContainer (containerName : String) (pod : Pod) : Run (Container × Bool) :=
  getContainerFrom containerName pod 0 pod.Containers

/-- The function `execInPod` of `main.go` for one execution unit: panic when
the executor cannot be built or the stream fails, otherwise print the two
buffers.  The deferred `wg.Done()` runs on every exit path: after the print
when the unit returns, and during the unwinding when it panics. -/
def execInPod (env : Env) (req : ExecRequest) : Outcome Unit :=
  match env.session req with
  | .executorError e => ⟨[Event.wgDone req], Run.panicked (Panic.err e)⟩
  | .streamError e => ⟨[Event.wgDone req], Run.panicked (Panic.err e)⟩
  | .streamed out err => ⟨[Event.unitPrint req out err, Event.wgDone req], Run.ret ()⟩

/-- The loop over `varnishPodList.Items`: for each pod ask `getContainer`, skip
the pod when it answers `false`, otherwise start one execution unit.  Returns
the units started. -/
def launchLoop (containerName cmd : String) : List Pod → Outcome (List ExecRequest)
  | [] => ⟨[], Run.ret []⟩
  | varnishPod :: rest =>
    match getContainer containerName varnishPod with
    | Run.panicked p => ⟨[], Run.panicked p⟩
    | Run.ret (container, ok) =>
      if !ok then launchLoop containerName cmd rest
      else
        let req : ExecRequest := ⟨varnishPod.Namespace, varnishPod.Name, cmd, container.Name⟩
        let r := launchLoop containerName cmd rest
        ⟨Event.spawn req :: r.events,
          match r.result with
          | Run.ret reqs => Run.ret (req :: reqs)
          | Run.panicked p => Run.panicked p⟩

/-- The started units run up to the barrier.  The units are taken in the order
of their start, which is one of the schedules the runtime may choose.  A panic
in any unit ends the process; the result of such a run is the same under every
schedule, while its trace is that of this one schedule and says nothing on how
far the other units and the waiting loop got before the process ended. -/
def runUnits (env : Env) : List ExecRequest → Outcome Unit
  | [] => ⟨[], Run.ret ()⟩
  | req :: rest =>
    let u := execInPod env req
    match u.result with
    | Run.panicked p => ⟨u.events, Run.panicked p⟩
    | Run.ret _ =>
      let r := runUnits env rest
      ⟨u.events ++ r.events, r.result⟩

/-- The first part of the loop body: the command for this message.  `none` is
the `continue` taken after "Service Not Found". -/
def buildCommand (env : Env) (payload : String) : Outcome (Option String) :=
  if payload = "configReload" then
    ⟨[], Run.ret (some "varnishreload /etc/varnish/default.vcl")⟩
  else
    let r := getKubeDNS env payload
    match r.result with
    | Run.panicked p => ⟨r.events, Run.panicked p⟩
    | Run.ret (kubeDNS, ok) =>
      if !ok then ⟨r.events ++ [Event.stdout "Service Not Found\n"], Run.ret none⟩
      else ⟨r.events, Run.ret (some ("varnishadm ban req.http.host == " ++ kubeDNS))⟩

/-- The second part of the loop body: list the pods, start the units, wait for
them and print the summary line.  When a unit panics the trace ends with the
events of `runUnits`; whether `wg.Wait()` returns and the summary is printed
before the process ends is left open. -/
def fanOut (cfg : Config) (env : Env) (payload cmd : String) : Outcome Unit :=
  match env.pods cfg.varnishNamespace with
  | .error e => ⟨[Event.listPods cfg.varnishNamespace], Run.panicked (Panic.err e)⟩
  | .ok items =>
    let l := launchLoop cfg.varnishContainerName cmd items
    match l.result with
    | Run.panicked p => ⟨Event.listPods cfg.varnishNamespace :: l.events, Run.panicked p⟩
    | Run.ret reqs =>
      let u := runUnits env reqs
      match u.result with
      | Run.panicked p =>
        ⟨Event.listPods cfg.varnishNamespace :: (l.events ++ u.events), Run.panicked p⟩
      | Run.ret _ =>
        ⟨Event.listPods cfg.varnishNamespace :: (l.events ++ u.events) ++
            [Event.barrier,
             Event.stdout (if payload = "configReload" then "Sucessful reload config\n"
                           else "Sucessful clean cache of " ++ payload ++ "\n")],
          Run.ret ()⟩

/-- One iteration of `for msg := range ch`.  The result `ret ()` means that the
loop goes on to the next message. -/
def cycle (cfg : Config) (env : Env) (payload : String) : Outcome Unit :=
  let b := buildCommand env payload
  match b.result with
  | Run.panicked p => ⟨b.events, Run.panicked p⟩
  | Run.ret none => ⟨b.events, Run.ret ()⟩
  | Run.ret (some cmd) =>
    let f := fanOut cfg env payload cmd
    ⟨b.events ++ f.events, f.result⟩

/-- The message loop over the messages delivered, each with the answers the
collaborators give while it is processed.  A panic ends the loop. -/
def loop (cfg : Config) : List (String × Env) → Outcome Unit
  | [] => ⟨[], Run.ret ()⟩
  | (payload, env) :: rest =>
    let c := cycle cfg env payload
    match c.result with
    | Run.panicked p => ⟨c.events, Run.panicked p⟩
    | Run.ret _ =>
      let r := loop cfg rest
      ⟨c.events ++ r.events, r.result⟩

end MainGo

/-! ## `cleanCache.go` -/

namespace CleanCacheGo

/-- The loop of `getKubeDNS` of `cleanCache.go` over `kubeServiceList.Items`. -/
def getKubeDNSItems (service : String) : List Service → String × Bool
  | [] => ("", false)
  | kubeService :: rest =>
    if kubeService.Name = service then
      (kubeService.Name ++ "." ++ kubeService.Namespace ++ ".svc.cluster.local", true)
    else getKubeDNSItems service rest

/-- The function `getKubeDNS` of `cleanCache.go`. -/
def getKubeDNS (env : Env) (service : String) : Outcome (String × Bool) :=
  match env.services with
  | .error e => ⟨[Event.listServices], Run.panicked (Panic.err e)⟩
  | .ok items => ⟨[Event.listServices], Run.ret (getKubeDNSItems service items)⟩

/-- The loop of `getContainer` of `cleanCache.go` from position `index` on. -/
def getContainerFrom (containerName : String) (pod : Pod) :
    Nat → List Container → Run (Container × Bool)
  | _, [] => Run.ret (emptyContainer, false)
  | index, container :: rest =>
    if container.Name = containerName then
      match pod.ContainerStatuses[index]? with
      | none => Run.panicked (Panic.indexOutOfRange index pod.ContainerStatuses.length)
      | some st =>
        if st.Ready then Run.ret (container, true)
        else getContainerFrom containerName pod (index + 1) rest
    else getContainerFrom containerName pod (index + 1) rest

/-- The function `getContainer` of `cleanCache.go`. -/
def getContainer (containerName : String) (pod : Pod) : Run (Container × Bool) :=
  getContainerFrom containerName pod 0 pod.Containers

/-- The function `execInPod` of `cleanCache.go` for one execution unit, with
its deferred `wg.Done()` on every exit path. -/
def execInPod (env : Env) (req : ExecRequest) : Outcome Unit :=
  match env.session req with
  | .executorError e => ⟨[Event.wgDone req], Run.panicked (Panic.err e)⟩
  | .streamError e => ⟨[Event.wgDone req], Run.panicked (Panic.err e)⟩
  | .streamed out err => ⟨[Event.unitPrint req out err, Event.wgDone req], Run.ret ()⟩

/-- The loop over `varnishPodList.Items` of `cleanCache.go`; the command of each
unit is the ban of `kubeDNS`. -/
def launchLoop (containerName kubeDNS : String) : List Pod → Outcome (List ExecRequest)
  | [] => ⟨[], Run.ret []⟩
  | varnishPod :: rest =>
    match getContainer containerName varnishPod with
    | Run.panicked p => ⟨[], Run.panicked p⟩
    | Run.ret (container, ok) =>
      if !ok then launchLoop containerName kubeDNS rest
      else
        let req : ExecRequest :=
          ⟨varnishPod.Namespace, varnishPod.Name,
            "varnishadm ban req.http.host == " ++ kubeDNS, container.Name⟩
        let r := launchLoop containerName kubeDNS rest
        ⟨Event.spawn req :: r.events,
          match r.result with
          | Run.ret reqs => Run.ret (req :: reqs)
          | Run.panicked p => Run.panicked p⟩

/-- The started units of `cleanCache.go` run up to the barrier, taken in the
order of their start. -/
def runUnits (env : Env) : List ExecRequest → Outcome Unit
  | [] => ⟨[], Run.ret ()⟩
  | req :: rest =>
    let u := execInPod env req
    match u.result with
    | Run.panicked p => ⟨u.events, Run.panicked p⟩
    | Run.ret _ =>
      let r := runUnits env rest
      ⟨u.events ++ r.events, r.result⟩

/-- One iteration of `for msg := range ch` of `cleanCache.go`: every payload is
resolved as a service name. -/
def cycle (cfg : Config) (env : Env) (payload : String) : Outcome Unit :=
  let r := getKubeDNS env payload
  match r.result with
  | Run.panicked p => ⟨r.events, Run.panicked p⟩
  | Run.ret (kubeDNS, ok) =>
    if !ok then ⟨r.events ++ [Event.stdout "Service Not Found\n"], Run.ret ()⟩
    else
      match env.pods cfg.varnishNamespace with
      | .error e =>
        ⟨r.events ++ [Event.listPods cfg.varnishNamespace], Run.panicked (Panic.err e)⟩
      | .ok items =>
        let l := launchLoop cfg.varnishContainerName kubeDNS items
        match l.result with
        | Run.panicked p =>
          ⟨r.events ++ Event.listPods cfg.varnishNamespace :: l.events, Run.panicked p⟩
        | Run.ret reqs =>
          let u := runUnits env reqs
          match u.result with
          | Run.panicked p =>
            ⟨r.events ++ Event.listPods cfg.varnishNamespace :: (l.events ++ u.events),
              Run.panicked p⟩
          | Run.ret _ =>
            ⟨r.events ++ (Event.listPods cfg.varnishNamespace :: (l.events ++ u.events) ++
                [Event.barrier,
                 Event.stdout ("Sucessful clean cache of " ++ payload ++ "\n")]),
              Run.ret ()⟩

end CleanCacheGo

/-! ## Concrete snapshots used as examples -/

/-- A collaborator set whose listings are the given snapshots and whose remote
sessions all succeed with empty output. -/
def quietEnv (services : List Service) (pods : List Pod) : Env :=
  ⟨.ok services, fun _ => .ok pods, fun _ => SessionOutcome.streamed "" ""⟩

/-- The configuration used in the examples. -/
def exampleConfig : Config := ⟨"varnish", "cache-service"⟩

/-- A directory with two services named `billing-api`, in `prod` and then in
`staging`, behind a service of another name. -/
def billingServices : List Service :=
  [⟨"web", "default"⟩, ⟨"billing-api", "prod"⟩, ⟨"billing-api", "staging"⟩]

/-- A pod whose target container is ready. -/
def readyPod (name : String) : Pod :=
  ⟨"varnish", name, [⟨"sidecar", "envoy"⟩, ⟨"cache-service", "varnish:6"⟩], [⟨true⟩, ⟨true⟩]⟩

/-- A pod whose target container is declared but not ready. -/
def notReadyPod (name : String) : Pod :=
  ⟨"varnish", name, [⟨"sidecar", "envoy"⟩, ⟨"cache-service", "varnish:6"⟩], [⟨true⟩, ⟨false⟩]⟩

/-- A fleet of three pods: two with the target container ready and, between
them, one with it not ready. -/
def threePods : List Pod := [readyPod "varnish-0", notReadyPod "varnish-1", readyPod "varnish-2"]

/-- A pod that declares the target container and reports no readiness flag at
all, as a pod does before its containers are created. -/
def pendingPod : Pod := ⟨"varnish", "varnish-3", [⟨"cache-service", "varnish:6"⟩], []⟩

/-- A pod that declares the target container twice: the first not ready, the
second and a third ready. -/
def twinPod : Pod :=
  ⟨"varnish", "varnish-4",
    [⟨"cache-service", "a"⟩, ⟨"cache-service", "b"⟩, ⟨"cache-service", "c"⟩],
    [⟨false⟩, ⟨true⟩, ⟨true⟩]⟩

/-- A collaborator set whose service listing fails. -/
def directoryDownEnv : Env :=
  ⟨.error "connection refused", fun _ => .ok threePods, fun _ => SessionOutcome.streamed "" ""⟩

/-- A collaborator set whose pod listing fails. -/
def fleetDownEnv : Env :=
  ⟨.ok billingServices, fun _ => .error "connection refused",
    fun _ => SessionOutcome.streamed "" ""⟩

/-- A collaborator set in which the remote session of pod `varnish-2` fails to
stream and every other session succeeds. -/
def oneSessionFailsEnv : Env :=
  ⟨.ok billingServices, fun _ => .ok threePods,
    fun req => if req.podName = "varnish-2" then SessionOutcome.streamError "broken pipe"
               else SessionOutcome.streamed "" ""⟩

/-! ## Lemmas on traces -/

theorem launched_append (xs ys : List Event) :
    launched (xs ++ ys) = launched xs ++ launched ys := by
  induction xs with
  | nil => rfl
  | cons e rest ih => cases e <;> simp [launched, ih]

theorem readyAt_lt_length {t : String} {pod : Pod} {i : Nat} (h : readyAt t pod i = true) :
    i < pod.Containers.length := by
  unfold readyAt at h
  by_contra hlt
  have hnone : pod.Containers[i]? = none := List.getElem?_eq_none (by omega)
  rw [hnone] at h
  simp at h

theorem eligible_iff (t : String) (pod : Pod) :
    eligible t pod = true ↔ ∃ i, readyAt t pod i = true := by
  unfold eligible
  rw [List.any_eq_true]
  constructor
  · rintro ⟨i, _, hi⟩
    exact ⟨i, hi⟩
  · rintro ⟨i, hi⟩
    exact ⟨i, List.mem_range.mpr (readyAt_lt_length hi), hi⟩

/-! ## Lemmas on `getContainer` of `main.go` -/

namespace MainGo

/-- The container returned with `true` sits at the least ready position at or
after `index`. -/
theorem getContainerFrom_true (t : String) (pod : Pod) (rest : List Container) :
    ∀ (index : Nat) (c : Container),
      (∀ k, rest[k]? = pod.Containers[index + k]?) →
      getContainerFrom t pod index rest = Run.ret (c, true) →
      ∃ i, index ≤ i ∧ pod.Containers[i]? = some c ∧ readyAt t pod i = true ∧
        ∀ j, index ≤ j → j < i → readyAt t pod j = false := by
  induction rest with
  | nil => intro index c _ h; simp [getContainerFrom] at h
  | cons d rest ih =>
    intro index c hrel h
    have hd : pod.Containers[index]? = some d := by simpa using (hrel 0).symm
    have hrel1 : ∀ k, rest[k]? = pod.Containers[index + 1 + k]? := by
      intro k
      have := hrel (k + 1)
      simpa [Nat.add_assoc, Nat.add_comm 1 k] using this
    have hskip : readyAt t pod index = false →
        getContainerFrom t pod (index + 1) rest = Run.ret (c, true) →
        ∃ i, index ≤ i ∧ pod.Containers[i]? = some c ∧ readyAt t pod i = true ∧
          ∀ j, index ≤ j → j < i → readyAt t pod j = false := by
      intro hno hrec
      obtain ⟨i, hi, hc, hr, hmin⟩ := ih (index + 1) c hrel1 hrec
      refine ⟨i, by omega, hc, hr, ?_⟩
      intro j hj hji
      rcases Nat.eq_or_lt_of_le hj with heq | hlt
      · subst heq; exact hno
      · exact hmin j hlt hji
    unfold getContainerFrom at h
    by_cases hname : d.Name = t
    · rw [if_pos hname] at h
      cases hst : pod.ContainerStatuses[index]? with
      | none => rw [hst] at h; simp at h
      | some st =>
        rw [hst] at h
        by_cases hready : st.Ready = true
        · simp only [hready, if_true] at h
          have hcd : d = c := by
            have := Run.ret.inj h
            exact (Prod.mk.inj this).1
          subst hcd
          refine ⟨index, le_refl _, hd, ?_, ?_⟩
          · simp [readyAt, hd, hst, hname, hready]
          · intro j hj hji; omega
        · simp only [hready] at h
          apply hskip _ h
          simp [readyAt, hd, hst, hready]
    · rw [if_neg hname] at h
      apply hskip _ h
      cases hst : pod.ContainerStatuses[index]? <;> simp [readyAt, hd, hst, hname]

/-- When the answer is `false` the container returned is the zero value and no
position from `index` on is ready. -/
theorem getContainerFrom_false (t : String) (pod : Pod) (rest : List Container) :
    ∀ (index : Nat) (c : Container),
      (∀ k, rest[k]? = pod.Containers[index + k]?) →
      getContainerFrom t pod index rest = Run.ret (c, false) →
      c = emptyContainer ∧ ∀ j, index ≤ j → readyAt t pod j = false := by
  induction rest with
  | nil =>
    intro index c hrel h
    simp [getContainerFrom] at h
    refine ⟨h.symm, ?_⟩
    intro j hj
    have hnone : pod.Containers[j]? = none := by
      have := hrel (j - index)
      rw [show index + (j - index) = j by omega] at this
      simpa using this.symm
    simp [readyAt, hnone]
  | cons d rest ih =>
    intro index c hrel h
    have hd : pod.Containers[index]? = some d := by simpa using (hrel 0).symm
    have hrel1 : ∀ k, rest[k]? = pod.Containers[index + 1 + k]? := by
      intro k
      have := hrel (k + 1)
      simpa [Nat.add_assoc, Nat.add_comm 1 k] using this
    have hskip : readyAt t pod index = false →
        getContainerFrom t pod (index + 1) rest = Run.ret (c, false) →
        c = emptyContainer ∧ ∀ j, index ≤ j → readyAt t pod j = false := by
      intro hno hrec
      obtain ⟨hc, hall⟩ := ih (index + 1) c hrel1 hrec
      refine ⟨hc, ?_⟩
      intro j hj
      rcases Nat.eq_or_lt_of_le hj with heq | hlt
      · subst heq; exact hno
      · exact hall j hlt
    unfold getContainerFrom at h
    by_cases hname : d.Name = t
    · rw [if_pos hname] at h
      cases hst : pod.ContainerStatuses[index]? with
      | none => rw [hst] at h; simp at h
      | some st =>
        rw [hst] at h
        by_cases hready : st.Ready = true
        · simp [hready] at h
        · simp only [hready] at h
          apply hskip _ h
          simp [readyAt, hd, hst, hready]
    · rw [if_neg hname] at h
      apply hskip _ h
      cases hst : pod.ContainerStatuses[index]? <;> simp [readyAt, hd, hst, hname]

/-- With a readiness flag for every remaining position the loop returns. -/
theorem getContainerFrom_returns (t : String) (pod : Pod) (rest : List Container) :
    ∀ (index : Nat), index + rest.length ≤ pod.ContainerStatuses.length →
      ∃ c ok, getContainerFrom t pod index rest = Run.ret (c, ok) := by
  induction rest with
  | nil => intro index _; exact ⟨emptyContainer, false, rfl⟩
  | cons d rest ih =>
    intro index hlen
    simp only [List.length_cons] at hlen
    have hrec := ih (index + 1) (by omega)
    unfold getContainerFrom
    by_cases hname : d.Name = t
    · rw [if_pos hname]
      have hlt : index < pod.ContainerStatuses.length := by omega
      rw [List.getElem?_eq_getElem hlt]
      by_cases hready : (pod.ContainerStatuses[index]).Ready = true
      · exact ⟨d, true, by simp [hready]⟩
      · simpa [hready] using hrec
    · rw [if_neg hname]
      exact hrec

/-- On a pod with one readiness flag per declared container `getContainer`
returns, with `true` and a container of the wanted name exactly when the pod is
eligible and with the zero value and `false` otherwise. -/
theorem getContainer_aligned (t : String) (pod : Pod)
    (hal : pod.ContainerStatuses.length = pod.Containers.length) :
    (eligible t pod = true ∧ ∃ c, getContainer t pod = Run.ret (c, true) ∧ c.Name = t) ∨
    (eligible t pod = false ∧ getContainer t pod = Run.ret (emptyContainer, false)) := by
  have hrel : ∀ k, pod.Containers[k]? = pod.Containers[0 + k]? := by intro k; simp
  obtain ⟨c, ok, h⟩ := getContainerFrom_returns t pod pod.Containers 0 (by omega)
  cases ok with
  | true =>
    left
    obtain ⟨i, _, hc, hr, _⟩ := getContainerFrom_true t pod pod.Containers 0 c hrel h
    refine ⟨(eligible_iff t pod).mpr ⟨i, hr⟩, c, h, ?_⟩
    unfold readyAt at hr
    rw [hc] at hr
    cases hst : pod.ContainerStatuses[i]? with
    | none => rw [hst] at hr; simp at hr
    | some st => rw [hst] at hr; simp at hr; exact hr.1
  | false =>
    right
    obtain ⟨hc, hall⟩ := getContainerFrom_false t pod pod.Containers 0 c hrel h
    subst hc
    refine ⟨?_, h⟩
    cases he : eligible t pod with
    | false => rfl
    | true =>
      obtain ⟨i, hi⟩ := (eligible_iff t pod).mp he
      rw [hall i (Nat.zero_le _)] at hi
      simp at hi

/-- The launch loop only records the start of execution units. -/
theorem launchLoop_events_spawn (t cmd : String) (pods : List Pod) :
    ∀ e ∈ (launchLoop t cmd pods).events, ∃ req, e = Event.spawn req ∧ req.command = cmd := by
  induction pods with
  | nil => intro e he; simp [launchLoop] at he
  | cons pod rest ih =>
    intro e he
    unfold launchLoop at he
    cases hg : getContainer t pod with
    | panicked p => rw [hg] at he; simp at he
    | ret a =>
      obtain ⟨c, ok⟩ := a
      rw [hg] at he
      cases ok with
      | false => exact ih e (by simpa using he)
      | true =>
        simp only [Bool.not_true, Bool.false_eq_true, if_false, List.mem_cons] at he
        rcases he with rfl | he
        · exact ⟨_, rfl, rfl⟩
        · exact ih e he

/-- The events of the launch loop are the starts of the units it returns. -/
theorem launchLoop_ret (t cmd : String) (pods : List Pod) :
    ∀ reqs, (launchLoop t cmd pods).result = Run.ret reqs →
      (launchLoop t cmd pods).events = reqs.map Event.spawn := by
  induction pods with
  | nil => intro reqs h; simp [launchLoop] at h; simp [launchLoop, ← h]
  | cons pod rest ih =>
    intro reqs h
    unfold launchLoop at h ⊢
    cases hg : getContainer t pod with
    | panicked p => rw [hg] at h; simp at h
    | ret a =>
      obtain ⟨c, ok⟩ := a
      rw [hg] at h
      cases ok with
      | false => simpa using ih reqs (by simpa using h)
      | true =>
        simp only [Bool.not_true, Bool.false_eq_true, if_false] at h ⊢
        cases hr : (launchLoop t cmd rest).result with
        | panicked p => rw [hr] at h; simp at h
        | ret reqs1 =>
          rw [hr] at h
          have := Run.ret.inj h
          subst this
          simp [ih reqs1 hr]

/-- On an aligned listing the launch loop starts one unit for each eligible
pod, in the order of the listing, and returns. -/
theorem launchLoop_aligned (t cmd : String) (pods : List Pod) (hal : aligned pods) :
    (launchLoop t cmd pods).result =
        Run.ret ((pods.filter (eligible t)).map (unitFor t cmd)) ∧
    (launchLoop t cmd pods).events =
        ((pods.filter (eligible t)).map (unitFor t cmd)).map Event.spawn := by
  induction pods with
  | nil => simp [launchLoop]
  | cons pod rest ih =>
    have hrest : aligned rest := fun q hq => hal q (List.mem_cons_of_mem _ hq)
    obtain ⟨ihr, ihe⟩ := ih hrest
    unfold launchLoop
    rcases getContainer_aligned t pod (hal pod (List.mem_cons_self _ _)) with
      ⟨he, c, hg, hn⟩ | ⟨he, hg⟩
    · rw [hg]
      simp [ihr, ihe, he, unitFor, hn]
    · rw [hg]
      simp [ihr, ihe, he]

/-- The units print and call `wg.Done()`; they start no further unit. -/
theorem runUnits_events (env : Env) (reqs : List ExecRequest) :
    ∀ e ∈ (runUnits env reqs).events,
      ∃ r out err, e = Event.unitPrint r out err ∨ e = Event.wgDone r := by
  induction reqs with
  | nil => intro e he; simp [runUnits] at he
  | cons req rest ih =>
    intro e he
    unfold runUnits execInPod at he
    cases hs : env.session req with
    | executorError m => rw [hs] at he; simp at he; exact ⟨req, "", "", Or.inr he⟩
    | streamError m => rw [hs] at he; simp at he; exact ⟨req, "", "", Or.inr he⟩
    | streamed out err =>
      rw [hs] at he
      simp only [List.cons_append, List.nil_append, List.mem_cons] at he
      rcases he with rfl | rfl | he
      · exact ⟨_, _, _, Or.inl rfl⟩
      · exact ⟨req, "", "", Or.inr rfl⟩
      · exact ih e he

theorem launched_runUnits (env : Env) (reqs : List ExecRequest) :
    launched (runUnits env reqs).events = [] := by
  have h := runUnits_events env reqs
  generalize (runUnits env reqs).events = es at h
  induction es with
  | nil => rfl
  | cons e rest ih =>
    have hrest := ih (fun x hx => h x (List.mem_cons_of_mem _ hx))
    obtain ⟨r, out, err, h1 | h1⟩ := h e (List.mem_cons_self _ _) <;> subst h1 <;>
      simpa [launched] using hrest

theorem launched_map_spawn (reqs : List ExecRequest) :
    launched (reqs.map Event.spawn) = reqs := by
  induction reqs with
  | nil => rfl
  | cons r rest ih => simp [launched, ih]

/-- Every unit runs to its print exactly when every session succeeds. -/
theorem runUnits_ok (env : Env) (reqs : List ExecRequest)
    (h : ∀ req ∈ reqs, sessionOk env req = true) : (runUnits env reqs).result = Run.ret () := by
  induction reqs with
  | nil => rfl
  | cons req rest ih =>
    have h0 := h req (List.mem_cons_self _ _)
    unfold sessionOk at h0
    unfold runUnits execInPod
    cases hs : env.session req with
    | executorError m => rw [hs] at h0; simp at h0
    | streamError m => rw [hs] at h0; simp at h0
    | streamed out err =>
      simpa using ih (fun r hr => h r (List.mem_cons_of_mem _ hr))

/-- A failing session among the units makes the run panic. -/
theorem runUnits_fail (env : Env) (reqs : List ExecRequest)
    (h : ∃ req ∈ reqs, sessionOk env req = false) :
    ∃ p, (runUnits env reqs).result = Run.panicked p := by
  induction reqs with
  | nil => simp at h
  | cons req rest ih =>
    unfold runUnits execInPod
    cases hs : env.session req with
    | executorError m => exact ⟨_, rfl⟩
    | streamError m => exact ⟨_, rfl⟩
    | streamed out err =>
      obtain ⟨r, hr, hf⟩ := h
      rcases List.mem_cons.mp hr with rfl | hr
      · simp [sessionOk, hs] at hf
      · simpa using ih ⟨r, hr, hf⟩

/-- The key of the first service of the wanted name, when there is one. -/
theorem getKubeDNSItems_first (s : String) (items : List Service)
    (h : ∃ x ∈ items, x.Name = s) :
    ∃ pre svc post, items = pre ++ svc :: post ∧ (∀ x ∈ pre, x.Name ≠ s) ∧ svc.Name = s ∧
      getKubeDNSItems s items =
        (svc.Name ++ "." ++ svc.Namespace ++ ".svc.cluster.local", true) := by
  induction items with
  | nil => simp at h
  | cons a rest ih =>
    by_cases ha : a.Name = s
    · exact ⟨[], a, rest, rfl, by simp, ha, by simp [getKubeDNSItems, ha]⟩
    · obtain ⟨x, hx, hxs⟩ := h
      have hx1 : x ∈ rest := by
        rcases List.mem_cons.mp hx with rfl | hx
        · exact absurd hxs ha
        · exact hx
      obtain ⟨pre, svc, post, hsplit, hpre, hsvc, hres⟩ := ih ⟨x, hx1, hxs⟩
      refine ⟨a :: pre, svc, post, by simp [hsplit], ?_, hsvc, by simp [getKubeDNSItems, ha, hres]⟩
      intro y hy
      rcases List.mem_cons.mp hy with rfl | hy
      · exact ha
      · exact hpre y hy

/-- No service of the wanted name: the empty key and `false`. -/
theorem getKubeDNSItems_absent (s : String) (items : List Service)
    (h : ∀ x ∈ items, x.Name ≠ s) : getKubeDNSItems s items = ("", false) := by
  induction items with
  | nil => rfl
  | cons a rest ih =>
    have ha : a.Name ≠ s := h a (List.mem_cons_self _ _)
    simp [getKubeDNSItems, ha, ih (fun x hx => h x (List.mem_cons_of_mem _ hx))]

theorem fanOut_pods_error (cfg : Config) (env : Env) (payload cmd m : String)
    (hp : env.pods cfg.varnishNamespace = .error m) :
    fanOut cfg env payload cmd =
      ⟨[Event.listPods cfg.varnishNamespace], Run.panicked (Panic.err m)⟩ := by
  simp [fanOut, hp]

theorem fanOut_launch_panic (cfg : Config) (env : Env) (payload cmd : String)
    (items : List Pod) (p : Panic) (hp : env.pods cfg.varnishNamespace = .ok items)
    (hl : (launchLoop cfg.varnishContainerName cmd items).result = Run.panicked p) :
    fanOut cfg env payload cmd =
      ⟨Event.listPods cfg.varnishNamespace ::
          (launchLoop cfg.varnishContainerName cmd items).events, Run.panicked p⟩ := by
  simp [fanOut, hp, hl]

theorem fanOut_units_panic (cfg : Config) (env : Env) (payload cmd : String)
    (items : List Pod) (reqs : List ExecRequest) (p : Panic)
    (hp : env.pods cfg.varnishNamespace = .ok items)
    (hl : (launchLoop cfg.varnishContainerName cmd items).result = Run.ret reqs)
    (hu : (runUnits env reqs).result = Run.panicked p) :
    fanOut cfg env payload cmd =
      ⟨Event.listPods cfg.varnishNamespace ::
          ((launchLoop cfg.varnishContainerName cmd items).events ++ (runUnits env reqs).events),
        Run.panicked p⟩ := by
  simp [fanOut, hp, hl, hu]

theorem fanOut_completes (cfg : Config) (env : Env) (payload cmd : String)
    (items : List Pod) (reqs : List ExecRequest)
    (hp : env.pods cfg.varnishNamespace = .ok items)
    (hl : (launchLoop cfg.varnishContainerName cmd items).result = Run.ret reqs)
    (hu : (runUnits env reqs).result = Run.ret ()) :
    fanOut cfg env payload cmd =
      ⟨Event.listPods cfg.varnishNamespace ::
          ((launchLoop cfg.varnishContainerName cmd items).events ++ (runUnits env reqs).events) ++
          [Event.barrier,
           Event.stdout (if payload = "configReload" then "Sucessful reload config\n"
                         else "Sucessful clean cache of " ++ payload ++ "\n")],
        Run.ret ()⟩ := by
  simp [fanOut, hp, hl, hu]

/-- Every event of the second part of the loop body is the pod listing, the
start of a unit with the command of the cycle, the print or the `wg.Done()`
of a unit, the barrier or the summary line. -/
theorem fanOut_events_cases (cfg : Config) (env : Env) (payload cmd : String) :
    ∀ e ∈ (fanOut cfg env payload cmd).events,
      e = Event.listPods cfg.varnishNamespace ∨
      (∃ req, e = Event.spawn req ∧ req.command = cmd) ∨
      (∃ r out err, e = Event.unitPrint r out err ∨ e = Event.wgDone r) ∨
      e = Event.barrier ∨
      e = Event.stdout (if payload = "configReload" then "Sucessful reload config\n"
                        else "Sucessful clean cache of " ++ payload ++ "\n") := by
  intro e he
  cases hp : env.pods cfg.varnishNamespace with
  | error m =>
    rw [fanOut_pods_error cfg env payload cmd m hp] at he
    simp at he; exact Or.inl he
  | ok items =>
    have hl := launchLoop_events_spawn cfg.varnishContainerName cmd items
    cases hlr : (launchLoop cfg.varnishContainerName cmd items).result with
    | panicked p =>
      rw [fanOut_launch_panic cfg env payload cmd items p hp hlr] at he
      simp only [List.mem_cons] at he
      rcases he with rfl | he
      · exact Or.inl rfl
      · exact Or.inr (Or.inl (hl e he))
    | ret reqs =>
      have hu := runUnits_events env reqs
      cases hur : (runUnits env reqs).result with
      | panicked p =>
        rw [fanOut_units_panic cfg env payload cmd items reqs p hp hlr hur] at he
        simp only [List.mem_cons, List.mem_append] at he
        rcases he with rfl | he | he
        · exact Or.inl rfl
        · exact Or.inr (Or.inl (hl e he))
        · exact Or.inr (Or.inr (Or.inl (hu e he)))
      | ret u =>
        rw [fanOut_completes cfg env payload cmd items reqs hp hlr hur] at he
        simp only [List.cons_append, List.mem_cons, List.mem_append, List.mem_singleton,
          List.not_mem_nil, or_false] at he
        rcases he with rfl | (he | he) | rfl | rfl
        · exact Or.inl rfl
        · exact Or.inr (Or.inl (hl e he))
        · exact Or.inr (Or.inr (Or.inl (hu e he)))
        · exact Or.inr (Or.inr (Or.inr (Or.inl rfl)))
        · exact Or.inr (Or.inr (Or.inr (Or.inr rfl)))

/-- The first part of the loop body lists the services at most once and prints
at most the not-found line. -/
theorem buildCommand_events_cases (env : Env) (payload : String) :
    ∀ e ∈ (buildCommand env payload).events,
      e = Event.listServices ∨ e = Event.stdout "Service Not Found\n" := by
  intro e he
  unfold buildCommand getKubeDNS at he
  by_cases hs : payload = "configReload"
  · simp [hs] at he
  · rw [if_neg hs] at he
    cases hsv : env.services with
    | error m => simp [hsv] at he; exact Or.inl he
    | ok items =>
      simp only [hsv] at he
      cases hok : (getKubeDNSItems payload items).2 <;> simp [hok] at he
      · rcases he with rfl | rfl
        · exact Or.inl rfl
        · exact Or.inr rfl
      · exact Or.inl he

theorem launched_buildCommand (env : Env) (payload : String) :
    launched (buildCommand env payload).events = [] := by
  have h := buildCommand_events_cases env payload
  generalize (buildCommand env payload).events = es at h
  induction es with
  | nil => rfl
  | cons e rest ih =>
    have hrest := ih (fun x hx => h x (List.mem_cons_of_mem _ hx))
    rcases h e (List.mem_cons_self _ _) with rfl | rfl <;> simpa [launched] using hrest

/-- A cycle whose command was built is that first part followed by the
fan-out. -/
theorem cycle_of_command (cfg : Config) (env : Env) (payload cmd : String)
    (hb : (buildCommand env payload).result = Run.ret (some cmd)) :
    cycle cfg env payload =
      ⟨(buildCommand env payload).events ++ (fanOut cfg env payload cmd).events,
        (fanOut cfg env payload cmd).result⟩ := by
  simp [cycle, hb]

/-- The units started by the fan-out are those started by its launch loop. -/
theorem launched_fanOut (cfg : Config) (env : Env) (payload cmd : String) (items : List Pod)
    (hp : env.pods cfg.varnishNamespace = .ok items) :
    launched (fanOut cfg env payload cmd).events =
      launched (launchLoop cfg.varnishContainerName cmd items).events := by
  cases hlr : (launchLoop cfg.varnishContainerName cmd items).result with
  | panicked p =>
    rw [fanOut_launch_panic cfg env payload cmd items p hp hlr]
    simp [launched]
  | ret reqs =>
    cases hur : (runUnits env reqs).result with
    | panicked p =>
      rw [fanOut_units_panic cfg env payload cmd items reqs p hp hlr hur]
      simp [launched, launched_append, launched_runUnits]
    | ret u =>
      rw [fanOut_completes cfg env payload cmd items reqs hp hlr hur]
      simp [launched, launched_append, launched_runUnits]

theorem launched_cycle (cfg : Config) (env : Env) (payload cmd : String) (items : List Pod)
    (hb : (buildCommand env payload).result = Run.ret (some cmd))
    (hp : env.pods cfg.varnishNamespace = .ok items) :
    launched (cycle cfg env payload).events =
      launched (launchLoop cfg.varnishContainerName cmd items).events := by
  rw [cycle_of_command cfg env payload cmd hb]
  simp [launched_append, launched_buildCommand, launched_fanOut cfg env payload cmd items hp]

/-- Every unit a cycle starts carries the command built for the cycle. -/
theorem launched_cycle_command (cfg : Config) (env : Env) (payload cmd : String)
    (hb : (buildCommand env payload).result = Run.ret (some cmd)) :
    ∀ req ∈ launched (cycle cfg env payload).events, req.command = cmd := by
  intro req hreq
  rw [cycle_of_command cfg env payload cmd hb, launched_append, launched_buildCommand] at hreq
  simp only [List.nil_append] at hreq
  have hmem : Event.spawn req ∈ (fanOut cfg env payload cmd).events := by
    clear hb
    generalize (fanOut cfg env payload cmd).events = es at hreq
    induction es with
    | nil => simp [launched] at hreq
    | cons e rest ih =>
      cases e <;> simp [launched] at hreq ⊢
      all_goals first
        | exact ih hreq
        | (rcases hreq with rfl | hreq
           · exact Or.inl rfl
           · exact Or.inr (ih hreq))
  rcases fanOut_events_cases cfg env payload cmd _ hmem with
    h | ⟨r, h, hc⟩ | ⟨r, o, x, h | h⟩ | h | h
  · cases h
  · cases h; exact hc
  · cases h
  · cases h
  · cases h
  · cases h

/-- The loop after a cycle that returned goes on with the next message. -/
theorem loop_continues (cfg : Config) (env : Env) (payload : String)
    (rest : List (String × Env)) (h : (cycle cfg env payload).result = Run.ret ()) :
    loop cfg ((payload, env) :: rest) =
      ⟨(cycle cfg env payload).events ++ (loop cfg rest).events, (loop cfg rest).result⟩ := by
  simp [loop, h]

/-- The loop after a cycle that panicked processes no further message. -/
theorem loop_stops (cfg : Config) (env : Env) (payload : String)
    (rest : List (String × Env)) (p : Panic)
    (h : (cycle cfg env payload).result = Run.panicked p) :
    loop cfg ((payload, env) :: rest) = ⟨(cycle cfg env payload).events, Run.panicked p⟩ := by
  simp [loop, h]

/-- The events of a cycle whose command was built, sorted by kind. -/
theorem cycle_events_cases (cfg : Config) (env : Env) (payload cmd : String)
    (hb : (buildCommand env payload).result = Run.ret (some cmd)) :
    ∀ e ∈ (cycle cfg env payload).events,
      e ∈ (buildCommand env payload).events ∨
      e = Event.listPods cfg.varnishNamespace ∨
      (∃ req, e = Event.spawn req ∧ req.command = cmd) ∨
      (∃ r out err, e = Event.unitPrint r out err ∨ e = Event.wgDone r) ∨
      e = Event.barrier ∨
      e = Event.stdout (if payload = "configReload" then "Sucessful reload config\n"
                        else "Sucessful clean cache of " ++ payload ++ "\n") := by
  intro e he
  rw [cycle_of_command cfg env payload cmd hb] at he
  rcases List.mem_append.mp he with h | h
  · exact Or.inl h
  · exact Or.inr (fanOut_events_cases cfg env payload cmd e h)

/-- A reload cycle neither lists the services nor prints the not-found line. -/
theorem reload_cycle_events (cfg : Config) (env : Env) :
    ∀ e ∈ (cycle cfg env "configReload").events,
      e ≠ Event.listServices ∧ e ≠ Event.stdout "Service Not Found\n" := by
  have hb : buildCommand env "configReload" =
      ⟨[], Run.ret (some "varnishreload /etc/varnish/default.vcl")⟩ := by
    simp [buildCommand]
  have hbr : (buildCommand env "configReload").result =
      Run.ret (some "varnishreload /etc/varnish/default.vcl") := by rw [hb]
  intro e he
  rcases cycle_events_cases cfg env "configReload" _ hbr e he with
    h | h | ⟨r, h, _⟩ | ⟨r, o, x, h | h⟩ | h | h
  · rw [hb] at h; simp at h
  · subst h; exact ⟨by simp, by simp⟩
  · subst h; exact ⟨by simp, by simp⟩
  · subst h; exact ⟨by simp, by simp⟩
  · subst h; exact ⟨by simp, by simp⟩
  · subst h; exact ⟨by simp, by simp⟩
  · subst h; exact ⟨by simp, by simp⟩

end MainGo

/-! ## The helper functions of the two files agree -/

namespace CleanCacheGo

theorem getKubeDNSItems_eq (s : String) (items : List Service) :
    MainGo.getKubeDNSItems s items = getKubeDNSItems s items := by
  induction items with
  | nil => rfl
  | cons a rest ih => simp [MainGo.getKubeDNSItems, getKubeDNSItems, ih]

theorem getKubeDNS_eq (env : Env) (s : String) : MainGo.getKubeDNS env s = getKubeDNS env s := by
  unfold MainGo.getKubeDNS getKubeDNS
  cases env.services <;> simp [getKubeDNSItems_eq]

theorem getContainerFrom_eq (t : String) (pod : Pod) (rest : List Container) :
    ∀ index, MainGo.getContainerFrom t pod index rest = getContainerFrom t pod index rest := by
  induction rest with
  | nil => intro index; rfl
  | cons c rest ih =>
    intro index
    simp [MainGo.getContainerFrom, getContainerFrom, ih]

theorem getContainer_eq (t : String) (pod : Pod) :
    MainGo.getContainer t pod = getContainer t pod :=
  getContainerFrom_eq t pod pod.Containers 0

theorem launchLoop_eq (t kubeDNS : String) (pods : List Pod) :
    MainGo.launchLoop t ("varnishadm ban req.http.host == " ++ kubeDNS) pods =
      launchLoop t kubeDNS pods := by
  induction pods with
  | nil => rfl
  | cons pod rest ih =>
    simp [MainGo.launchLoop, launchLoop, ih, getContainer_eq]

theorem runUnits_eq (env : Env) (reqs : List ExecRequest) :
    MainGo.runUnits env reqs = runUnits env reqs := by
  induction reqs with
  | nil => rfl
  | cons r rest ih => simp [MainGo.runUnits, runUnits, MainGo.execInPod, execInPod, ih]

end CleanCacheGo

/-! ## The claims -/

/-- C1: for every service listing and every name `s` that is the name of at
least one listed service, `getKubeDNS` (of `main.go` and of `cleanCache.go`)
returns `true` with the key `name.namespace.svc.cluster.local` of the first
listed service whose name is `s`. -/
theorem getKubeDNS_returns_first_match (env : Env) (items : List Service) (s : String)
    (henv : env.services = .ok items) (hmem : ∃ x ∈ items, x.Name = s) :
    ∃ pre svc post, items = pre ++ svc :: post ∧ (∀ x ∈ pre, x.Name ≠ s) ∧ svc.Name = s ∧
      (MainGo.getKubeDNS env s).result =
        Run.ret (svc.Name ++ "." ++ svc.Namespace ++ ".svc.cluster.local", true) ∧
      (CleanCacheGo.getKubeDNS env s).result =
        Run.ret (svc.Name ++ "." ++ svc.Namespace ++ ".svc.cluster.local", true) := by
  obtain ⟨pre, svc, post, hsplit, hpre, hsvc, hres⟩ := MainGo.getKubeDNSItems_first s items hmem
  refine ⟨pre, svc, post, hsplit, hpre, hsvc, ?_, ?_⟩
  · simp [MainGo.getKubeDNS, henv, hres]
  · simp [CleanCacheGo.getKubeDNS, henv, ← CleanCacheGo.getKubeDNSItems_eq, hres]

/-- Witness of C1: in a listing with two services named `billing-api` the key
returned is that of the first one. -/
theorem getKubeDNS_returns_first_match_witness :
    (∃ x ∈ billingServices, x.Name = "billing-api") ∧
    ∃ pre svc post, billingServices = pre ++ svc :: post ∧
      (∀ x ∈ pre, x.Name ≠ "billing-api") ∧ svc.Name = "billing-api" ∧
      (MainGo.getKubeDNS (quietEnv billingServices threePods) "billing-api").result =
        Run.ret (svc.Name ++ "." ++ svc.Namespace ++ ".svc.cluster.local", true) ∧
      (CleanCacheGo.getKubeDNS (quietEnv billingServices threePods) "billing-api").result =
        Run.ret (svc.Name ++ "." ++ svc.Namespace ++ ".svc.cluster.local", true) :=
  ⟨by decide,
    getKubeDNS_returns_first_match (quietEnv billingServices threePods) billingServices
      "billing-api" rfl (by decide)⟩

/-- C2: for every service listing, every answer of the pod listing and every
payload that is neither the reload sentinel nor the name of a listed service,
`getKubeDNS` returns the empty key with `false`; the cycle consists of the
service listing and the line "Service Not Found", so it starts no execution
unit and does not list the pods; and the loop goes on with the next
message. -/
theorem unknown_service_is_dropped (cfg : Config) (env : Env) (payload : String)
    (items : List Service) (rest : List (String × Env))
    (henv : env.services = .ok items) (hs : payload ≠ "configReload")
    (habs : ∀ x ∈ items, x.Name ≠ payload) :
    (MainGo.getKubeDNS env payload).result = Run.ret ("", false) ∧
    (MainGo.cycle cfg env payload).events =
      [Event.listServices, Event.stdout "Service Not Found\n"] ∧
    (MainGo.cycle cfg env payload).result = Run.ret () ∧
    launched (MainGo.cycle cfg env payload).events = [] ∧
    (∀ ns, Event.listPods ns ∉ (MainGo.cycle cfg env payload).events) ∧
    MainGo.loop cfg ((payload, env) :: rest) =
      ⟨[Event.listServices, Event.stdout "Service Not Found\n"] ++ (MainGo.loop cfg rest).events,
        (MainGo.loop cfg rest).result⟩ := by
  have hk : (MainGo.getKubeDNS env payload).result = Run.ret ("", false) := by
    simp [MainGo.getKubeDNS, henv, MainGo.getKubeDNSItems_absent payload items habs]
  have hke : (MainGo.getKubeDNS env payload).events = [Event.listServices] := by
    simp [MainGo.getKubeDNS, henv]
  have hev : (MainGo.cycle cfg env payload).events =
      [Event.listServices, Event.stdout "Service Not Found\n"] := by
    simp [MainGo.cycle, MainGo.buildCommand, hs, hk, hke]
  have hres : (MainGo.cycle cfg env payload).result = Run.ret () := by
    simp [MainGo.cycle, MainGo.buildCommand, hs, hk]
  refine ⟨hk, hev, hres, ?_, ?_, ?_⟩
  · rw [hev]; rfl
  · intro ns hmem
    rw [hev] at hmem
    simp at hmem
  · rw [MainGo.loop_continues cfg env payload rest hres, hev]

/-- Witness of C2: the payload `unknown-svc` against a directory without it and
a fleet of three pods. -/
theorem unknown_service_is_dropped_witness :
    ("unknown-svc" ≠ "configReload") ∧ (∀ x ∈ billingServices, x.Name ≠ "unknown-svc") ∧
    (MainGo.cycle exampleConfig (quietEnv billingServices threePods) "unknown-svc").events =
      [Event.listServices, Event.stdout "Service Not Found\n"] ∧
    launched
      (MainGo.cycle exampleConfig (quietEnv billingServices threePods) "unknown-svc").events = [] :=
  ⟨by decide, by decide,
    (unknown_service_is_dropped exampleConfig (quietEnv billingServices threePods) "unknown-svc"
      billingServices [] rfl (by decide) (by decide)).2.1,
    (unknown_service_is_dropped exampleConfig (quietEnv billingServices threePods) "unknown-svc"
      billingServices [] rfl (by decide) (by decide)).2.2.2.1⟩

/-- C4: for every answer of the service listing, the command built for the
payload `configReload` is `varnishreload /etc/varnish/default.vcl` and building
it records no event; the cycle never lists the services, never prints
"Service Not Found", and every unit it starts carries that command. -/
theorem reload_command_is_fixed (cfg : Config) (env : Env) :
    MainGo.buildCommand env "configReload" =
      ⟨[], Run.ret (some "varnishreload /etc/varnish/default.vcl")⟩ ∧
    Event.listServices ∉ (MainGo.cycle cfg env "configReload").events ∧
    Event.stdout "Service Not Found\n" ∉ (MainGo.cycle cfg env "configReload").events ∧
    ∀ req ∈ launched (MainGo.cycle cfg env "configReload").events,
      req.command = "varnishreload /etc/varnish/default.vcl" := by
  have hb : MainGo.buildCommand env "configReload" =
      ⟨[], Run.ret (some "varnishreload /etc/varnish/default.vcl")⟩ := by
    simp [MainGo.buildCommand]
  have hbr : (MainGo.buildCommand env "configReload").result =
      Run.ret (some "varnishreload /etc/varnish/default.vcl") := by rw [hb]
  have hcyc := MainGo.cycle_of_command cfg env "configReload" _ hbr
  have hcases := MainGo.fanOut_events_cases cfg env "configReload"
    "varnishreload /etc/varnish/default.vcl"
  refine ⟨hb, ?_, ?_, MainGo.launched_cycle_command cfg env "configReload" _ hbr⟩
  · intro hmem
    rw [hcyc, hb] at hmem
    simp only [List.nil_append] at hmem
    rcases hcases _ hmem with h | ⟨r, h, _⟩ | ⟨r, o, x, h | h⟩ | h | h <;> cases h
  · intro hmem
    rw [hcyc, hb] at hmem
    simp only [List.nil_append] at hmem
    rcases hcases _ hmem with h | ⟨r, h, _⟩ | ⟨r, o, x, h | h⟩ | h | h
    · cases h
    · cases h
    · cases h
    · cases h
    · cases h
    · simp at h

/-- C5: for every payload other than the reload sentinel that `getKubeDNS`
resolves to a key `k`, the command built is `varnishadm ban req.http.host == `
followed by `k`, and every unit the cycle starts carries that command. -/
theorem ban_command_is_built (cfg : Config) (env : Env) (payload k : String)
    (hs : payload ≠ "configReload")
    (hk : (MainGo.getKubeDNS env payload).result = Run.ret (k, true)) :
    (MainGo.buildCommand env payload).result =
      Run.ret (some ("varnishadm ban req.http.host == " ++ k)) ∧
    ∀ req ∈ launched (MainGo.cycle cfg env payload).events,
      req.command = "varnishadm ban req.http.host == " ++ k := by
  have hb : (MainGo.buildCommand env payload).result =
      Run.ret (some ("varnishadm ban req.http.host == " ++ k)) := by
    simp [MainGo.buildCommand, hs, hk]
  exact ⟨hb, MainGo.launched_cycle_command cfg env payload _ hb⟩

/-- Witness of C5: payload `billing-api` with a service `billing-api` in
namespace `prod`. -/
theorem ban_command_is_built_witness :
    ("billing-api" ≠ "configReload") ∧
    (MainGo.buildCommand (quietEnv [⟨"billing-api", "prod"⟩] threePods) "billing-api").result =
      Run.ret (some "varnishadm ban req.http.host == billing-api.prod.svc.cluster.local") ∧
    ∀ req ∈ launched
        (MainGo.cycle exampleConfig (quietEnv [⟨"billing-api", "prod"⟩] threePods)
          "billing-api").events,
      req.command = "varnishadm ban req.http.host == billing-api.prod.svc.cluster.local" :=
  ⟨by decide,
    ban_command_is_built exampleConfig (quietEnv [⟨"billing-api", "prod"⟩] threePods)
      "billing-api" "billing-api.prod.svc.cluster.local" (by decide) (by decide)⟩

/-- C3: in a cycle whose command was built and whose pod listing is aligned,
the units started are, in listing order, one for each pod that has at some
position a container of the target name whose readiness flag at that position
is true, and for no other pod; for a permuted listing the units started are
the same up to order. -/
theorem fleet_selection_is_exact (cfg : Config) (env : Env) (payload cmd : String)
    (pods : List Pod)
    (hb : (MainGo.buildCommand env payload).result = Run.ret (some cmd))
    (hp : env.pods cfg.varnishNamespace = .ok pods) (hal : aligned pods) :
    launched (MainGo.cycle cfg env payload).events =
      (pods.filter (eligible cfg.varnishContainerName)).map
        (unitFor cfg.varnishContainerName cmd) ∧
    (∀ pod, eligible cfg.varnishContainerName pod = true ↔
      ∃ (i : Nat) (c : Container) (st : ContainerStatus),
        pod.Containers[i]? = some c ∧ pod.ContainerStatuses[i]? = some st ∧
        c.Name = cfg.varnishContainerName ∧ st.Ready = true) ∧
    ∀ (env2 : Env) (pods2 : List Pod),
      (MainGo.buildCommand env2 payload).result = Run.ret (some cmd) →
      env2.pods cfg.varnishNamespace = .ok pods2 → pods2.Perm pods →
      (launched (MainGo.cycle cfg env2 payload).events).Perm
        (launched (MainGo.cycle cfg env payload).events) := by
  have key : ∀ (e : Env) (ps : List Pod),
      (MainGo.buildCommand e payload).result = Run.ret (some cmd) →
      e.pods cfg.varnishNamespace = .ok ps → aligned ps →
      launched (MainGo.cycle cfg e payload).events =
        (ps.filter (eligible cfg.varnishContainerName)).map
          (unitFor cfg.varnishContainerName cmd) := by
    intro e ps hb1 hp1 hal1
    rw [MainGo.launched_cycle cfg e payload cmd ps hb1 hp1,
      (MainGo.launchLoop_aligned cfg.varnishContainerName cmd ps hal1).2,
      MainGo.launched_map_spawn]
  refine ⟨key env pods hb hp hal, ?_, ?_⟩
  · intro pod
    rw [eligible_iff]
    constructor
    · rintro ⟨i, hi⟩
      unfold readyAt at hi
      cases hc : pod.Containers[i]? with
      | none => simp [hc] at hi
      | some c =>
        cases hst : pod.ContainerStatuses[i]? with
        | none => simp [hc, hst] at hi
        | some st =>
          simp [hc, hst] at hi
          exact ⟨i, c, st, hc, hst, hi.1, hi.2⟩
    · rintro ⟨i, c, st, hc, hst, hn, hr⟩
      exact ⟨i, by simp [readyAt, hc, hst, hn, hr]⟩
  · intro env2 pods2 hb2 hp2 hperm
    have hal2 : aligned pods2 := fun q hq => hal q (hperm.mem_iff.mp hq)
    rw [key env pods hb hp hal, key env2 pods2 hb2 hp2 hal2]
    exact (hperm.filter _).map _

/-- Witness of C3: three pods, two with the target container ready and one with
it not ready, give exactly two units. -/
theorem fleet_selection_is_exact_witness :
    aligned threePods ∧
    launched (MainGo.cycle exampleConfig (quietEnv billingServices threePods)
        "billing-api").events =
      [⟨"varnish", "varnish-0", "varnishadm ban req.http.host == billing-api.prod.svc.cluster.local",
          "cache-service"⟩,
       ⟨"varnish", "varnish-2", "varnishadm ban req.http.host == billing-api.prod.svc.cluster.local",
          "cache-service"⟩] :=
  ⟨by decide,
    (fleet_selection_is_exact exampleConfig (quietEnv billingServices threePods) "billing-api"
      "varnishadm ban req.http.host == billing-api.prod.svc.cluster.local" threePods
      (by decide) rfl (by decide)).1⟩

/-- C8: in a cycle whose command was built and whose pod listing is aligned,
the units started are the units of a sublist of the listing, one per pod, so
they are at most as many as the pods; whenever `getContainer` answers `true`
the container it returns sits at the least position whose container has the
target name and whose readiness flag is true; and it answers `true` for every
eligible pod of the listing. -/
theorem one_unit_per_instance (cfg : Config) (env : Env) (payload cmd : String)
    (pods : List Pod)
    (hb : (MainGo.buildCommand env payload).result = Run.ret (some cmd))
    (hp : env.pods cfg.varnishNamespace = .ok pods) (hal : aligned pods) :
    (∃ sel : List Pod, sel.Sublist pods ∧
      launched (MainGo.cycle cfg env payload).events =
        sel.map (unitFor cfg.varnishContainerName cmd)) ∧
    (launched (MainGo.cycle cfg env payload).events).length ≤ pods.length ∧
    (∀ (pod : Pod) (c : Container),
      MainGo.getContainer cfg.varnishContainerName pod = Run.ret (c, true) →
      ∃ i, pod.Containers[i]? = some c ∧ readyAt cfg.varnishContainerName pod i = true ∧
        ∀ j, j < i → readyAt cfg.varnishContainerName pod j = false) ∧
    ∀ pod ∈ pods, eligible cfg.varnishContainerName pod = true →
      ∃ c, MainGo.getContainer cfg.varnishContainerName pod = Run.ret (c, true) := by
  have hl : launched (MainGo.cycle cfg env payload).events =
      (pods.filter (eligible cfg.varnishContainerName)).map
        (unitFor cfg.varnishContainerName cmd) := by
    rw [MainGo.launched_cycle cfg env payload cmd pods hb hp,
      (MainGo.launchLoop_aligned cfg.varnishContainerName cmd pods hal).2,
      MainGo.launched_map_spawn]
  refine ⟨⟨_, List.filter_sublist pods, hl⟩, ?_, ?_, ?_⟩
  · rw [hl, List.length_map]
    exact List.length_filter_le _ _
  · intro pod c hg
    obtain ⟨i, _, hc, hr, hmin⟩ :=
      MainGo.getContainerFrom_true cfg.varnishContainerName pod pod.Containers 0 c
        (by intro k; simp) hg
    exact ⟨i, hc, hr, fun j hj => hmin j (Nat.zero_le _) hj⟩
  · intro pod hpod he
    rcases MainGo.getContainer_aligned cfg.varnishContainerName pod (hal pod hpod) with
      ⟨_, c, hg, _⟩ | ⟨hne, _⟩
    · exact ⟨c, hg⟩
    · rw [he] at hne; cases hne

/-- Witness of C8: a pod that declares the target container three times, ready
at the second and third position, gives one unit, and the container returned
is the second. -/
theorem one_unit_per_instance_witness :
    aligned [twinPod, notReadyPod "varnish-1"] ∧
    (launched (MainGo.cycle exampleConfig (quietEnv billingServices
        [twinPod, notReadyPod "varnish-1"]) "billing-api").events).length ≤ 2 ∧
    MainGo.getContainer "cache-service" twinPod = Run.ret (⟨"cache-service", "b"⟩, true) ∧
    ∃ i, twinPod.Containers[i]? = some ⟨"cache-service", "b"⟩ ∧
      readyAt "cache-service" twinPod i = true ∧
      ∀ j, j < i → readyAt "cache-service" twinPod j = false :=
  ⟨by decide,
    (one_unit_per_instance exampleConfig (quietEnv billingServices
      [twinPod, notReadyPod "varnish-1"]) "billing-api"
      "varnishadm ban req.http.host == billing-api.prod.svc.cluster.local"
      [twinPod, notReadyPod "varnish-1"] (by decide) rfl (by decide)).2.1,
    by decide,
    (one_unit_per_instance exampleConfig (quietEnv billingServices
      [twinPod, notReadyPod "varnish-1"]) "billing-api"
      "varnishadm ban req.http.host == billing-api.prod.svc.cluster.local"
      [twinPod, notReadyPod "varnish-1"] (by decide) rfl (by decide)).2.2.1
      twinPod ⟨"cache-service", "b"⟩ (by decide)⟩

/-- C7, evaluated at a pod that declares the target container and reports no
readiness flag: the pod has no ready role of the target name, and `getContainer`
of both files indexes the empty readiness slice at position 0 and panics; the
cycle, and with it the message loop, ends in that panic. -/
theorem getContainer_faults_on_missing_flag :
    eligible "cache-service" pendingPod = false ∧
    MainGo.getContainer "cache-service" pendingPod =
      Run.panicked (Panic.indexOutOfRange 0 0) ∧
    CleanCacheGo.getContainer "cache-service" pendingPod =
      Run.panicked (Panic.indexOutOfRange 0 0) ∧
    (MainGo.cycle exampleConfig (quietEnv billingServices [readyPod "varnish-0", pendingPod])
        "billing-api").result = Run.panicked (Panic.indexOutOfRange 0 0) ∧
    (MainGo.loop exampleConfig
        [("billing-api", quietEnv billingServices [readyPod "varnish-0", pendingPod]),
         ("billing-api", quietEnv billingServices threePods)]).result =
      Run.panicked (Panic.indexOutOfRange 0 0) := by
  refine ⟨by decide, by decide, by decide, by decide, by decide⟩

/-- Counterexample to C6: a failing service listing, a failing pod listing and
one failing remote session each end the cycle in a panic instead of leaving
the loop running; the loop that meets the failing service listing ends in that
panic although a second message is waiting. -/
theorem cycle_survives_failures_counterexample :
    (MainGo.cycle exampleConfig directoryDownEnv "billing-api").result =
      Run.panicked (Panic.err "connection refused") ∧
    (MainGo.cycle exampleConfig fleetDownEnv "billing-api").result =
      Run.panicked (Panic.err "connection refused") ∧
    (MainGo.cycle exampleConfig oneSessionFailsEnv "billing-api").result =
      Run.panicked (Panic.err "broken pipe") ∧
    (MainGo.loop exampleConfig
        [("billing-api", directoryDownEnv),
         ("billing-api", quietEnv billingServices threePods)]).result =
      Run.panicked (Panic.err "connection refused") ∧
    (MainGo.loop exampleConfig
        [("billing-api", oneSessionFailsEnv),
         ("billing-api", quietEnv billingServices threePods)]).result =
      Run.panicked (Panic.err "broken pipe") := by
  refine ⟨by decide, by decide, by decide, by decide, by decide⟩

/-- C6 as amended: a cycle ends in a panic when the service listing it makes
fails, when the pod listing fails, or when the remote session of a unit it
started fails, and the message loop then ends in the same panic whatever
messages follow; with the command built, an aligned pod listing and every
started unit's session succeeding the cycle returns; and after a cycle that
returns the loop goes on with the next message. -/
theorem collaborator_failure_ends_process (cfg : Config) (env : Env) (payload : String)
    (rest : List (String × Env)) :
    (∀ m, payload ≠ "configReload" → env.services = .error m →
      (MainGo.cycle cfg env payload).result = Run.panicked (Panic.err m)) ∧
    (∀ m cmd, (MainGo.buildCommand env payload).result = Run.ret (some cmd) →
      env.pods cfg.varnishNamespace = .error m →
      (MainGo.cycle cfg env payload).result = Run.panicked (Panic.err m)) ∧
    (∀ cmd pods, (MainGo.buildCommand env payload).result = Run.ret (some cmd) →
      env.pods cfg.varnishNamespace = .ok pods →
      (∃ req ∈ launched (MainGo.cycle cfg env payload).events, sessionOk env req = false) →
      ∃ p, (MainGo.cycle cfg env payload).result = Run.panicked p) ∧
    (∀ cmd pods, (MainGo.buildCommand env payload).result = Run.ret (some cmd) →
      env.pods cfg.varnishNamespace = .ok pods → aligned pods →
      (∀ req ∈ launched (MainGo.cycle cfg env payload).events, sessionOk env req = true) →
      (MainGo.cycle cfg env payload).result = Run.ret ()) ∧
    (∀ p, (MainGo.cycle cfg env payload).result = Run.panicked p →
      (MainGo.loop cfg ((payload, env) :: rest)).result = Run.panicked p) ∧
    ((MainGo.cycle cfg env payload).result = Run.ret () →
      MainGo.loop cfg ((payload, env) :: rest) =
        ⟨(MainGo.cycle cfg env payload).events ++ (MainGo.loop cfg rest).events,
          (MainGo.loop cfg rest).result⟩) := by
  refine ⟨?_, ?_, ?_, ?_, ?_, ?_⟩
  · intro m hs hsv
    simp [MainGo.cycle, MainGo.buildCommand, hs, MainGo.getKubeDNS, hsv]
  · intro m cmd hb hp
    rw [MainGo.cycle_of_command cfg env payload cmd hb,
      MainGo.fanOut_pods_error cfg env payload cmd m hp]
  · intro cmd pods hb hp hfail
    rw [MainGo.launched_cycle cfg env payload cmd pods hb hp] at hfail
    rw [MainGo.cycle_of_command cfg env payload cmd hb]
    cases hlr : (MainGo.launchLoop cfg.varnishContainerName cmd pods).result with
    | panicked p =>
      rw [MainGo.fanOut_launch_panic cfg env payload cmd pods p hp hlr]
      exact ⟨p, rfl⟩
    | ret reqs =>
      rw [MainGo.launchLoop_ret _ _ _ reqs hlr, MainGo.launched_map_spawn] at hfail
      obtain ⟨p, hpanic⟩ := MainGo.runUnits_fail env reqs hfail
      rw [MainGo.fanOut_units_panic cfg env payload cmd pods reqs p hp hlr hpanic]
      exact ⟨p, rfl⟩
  · intro cmd pods hb hp hal hok
    rw [MainGo.launched_cycle cfg env payload cmd pods hb hp] at hok
    obtain ⟨hlr, hle⟩ := MainGo.launchLoop_aligned cfg.varnishContainerName cmd pods hal
    rw [hle, MainGo.launched_map_spawn] at hok
    rw [MainGo.cycle_of_command cfg env payload cmd hb,
      MainGo.fanOut_completes cfg env payload cmd pods _ hp hlr (MainGo.runUnits_ok env _ hok)]
  · intro p h
    rw [MainGo.loop_stops cfg env payload rest p h]
  · intro h
    exact MainGo.loop_continues cfg env payload rest h

/-- Witness of amended C6: with the session of pod `varnish-2` failing the
cycle ends in a panic. -/
theorem collaborator_failure_ends_process_witness :
    (∃ req ∈ launched (MainGo.cycle exampleConfig oneSessionFailsEnv "billing-api").events,
      sessionOk oneSessionFailsEnv req = false) ∧
    ∃ p, (MainGo.cycle exampleConfig oneSessionFailsEnv "billing-api").result =
      Run.panicked p :=
  ⟨by decide,
    (collaborator_failure_ends_process exampleConfig oneSessionFailsEnv "billing-api" []).2.2.1
      "varnishadm ban req.http.host == billing-api.prod.svc.cluster.local" threePods
      (by decide) rfl (by decide)⟩

/-- C10: on every payload other than `configReload`, with the same
configuration and the same answers of the collaborators, one iteration of the
loop of `cleanCache.go` and one of `main.go` record the same events and end the
same way, so they start the same units in the same order; on `configReload`
they differ: `cleanCache.go` begins by listing the services to resolve the
payload as a service name and `main.go` never lists them. -/
theorem cleanCache_agrees_with_main (cfg : Config) (env : Env) (payload : String)
    (hs : payload ≠ "configReload") :
    CleanCacheGo.cycle cfg env payload = MainGo.cycle cfg env payload ∧
    launched (CleanCacheGo.cycle cfg env payload).events =
      launched (MainGo.cycle cfg env payload).events ∧
    ((CleanCacheGo.cycle cfg env "configReload").events.head? = some Event.listServices ∧
      Event.listServices ∉ (MainGo.cycle cfg env "configReload").events ∧
      CleanCacheGo.cycle cfg env "configReload" ≠ MainGo.cycle cfg env "configReload") := by
  have heq : CleanCacheGo.cycle cfg env payload = MainGo.cycle cfg env payload := by
    unfold CleanCacheGo.cycle MainGo.cycle MainGo.buildCommand MainGo.fanOut
    rw [if_neg hs, CleanCacheGo.getKubeDNS_eq]
    cases hr : (CleanCacheGo.getKubeDNS env payload).result with
    | panicked p => simp [hr]
    | ret a =>
      obtain ⟨k, ok⟩ := a
      cases ok with
      | false => simp [hr]
      | true =>
        simp only [hr, Bool.not_true, Bool.false_eq_true, if_false, if_neg hs]
        cases hp : env.pods cfg.varnishNamespace with
        | error m => simp
        | ok items =>
          simp only [CleanCacheGo.launchLoop_eq]
          cases hl : (CleanCacheGo.launchLoop cfg.varnishContainerName k items).result with
          | panicked p => simp
          | ret reqs =>
            simp only [CleanCacheGo.runUnits_eq]
            cases hu : (CleanCacheGo.runUnits env reqs).result with
            | panicked p => simp
            | ret u => simp
  have hhead : (CleanCacheGo.cycle cfg env "configReload").events.head? =
      some Event.listServices := by
    unfold CleanCacheGo.cycle CleanCacheGo.getKubeDNS
    cases hsv : env.services with
    | error m => simp
    | ok items =>
      simp only []
      cases hk : CleanCacheGo.getKubeDNSItems "configReload" items with
      | mk k ok =>
        cases ok with
        | false => simp
        | true =>
          simp only [Bool.not_true, Bool.false_eq_true, if_false]
          cases hp : env.pods cfg.varnishNamespace with
          | error m => simp
          | ok pods =>
            simp only []
            cases hl : (CleanCacheGo.launchLoop cfg.varnishContainerName k pods).result with
            | panicked p => simp
            | ret reqs =>
              simp only []
              cases hu : (CleanCacheGo.runUnits env reqs).result <;> simp
  have hno : Event.listServices ∉ (MainGo.cycle cfg env "configReload").events :=
    fun hmem => (MainGo.reload_cycle_events cfg env _ hmem).1 rfl
  refine ⟨heq, by rw [heq], hhead, hno, ?_⟩
  intro hcontra
  rw [hcontra] at hhead
  exact hno (List.mem_of_mem_head? hhead)

/-- Witness of C10: the payload `billing-api` against a fleet of three pods. -/
theorem cleanCache_agrees_with_main_witness :
    ("billing-api" ≠ "configReload") ∧
    CleanCacheGo.cycle exampleConfig (quietEnv billingServices threePods) "billing-api" =
      MainGo.cycle exampleConfig (quietEnv billingServices threePods) "billing-api" :=
  ⟨by decide,
    (cleanCache_agrees_with_main exampleConfig (quietEnv billingServices threePods)
      "billing-api" (by decide)).1⟩

end VarnishCacheClean
